import Mathlib

/-!
Shallow embedding of the platformer's movement/collision core
(src/player.py, src/enemy.py, src/level.py) and proofs about the
spec claims concerning it.

Coordinates are modelled as rationals.  A pygame `Rect` stores integer
coordinates (float assignments are truncated); the collision logic only
adds and compares coordinates, so the same algorithm is expressed here
over `ℚ`, which contains all the integer states the game reaches.
Timer, drawing and sound fields that do not feed back into the claims
are omitted from the embedded records.
-/

namespace Platformer

/-- Axis-aligned rectangle in level pixel coordinates, mirroring
`pygame.Rect` with corner `(x, y)` and size `(width, height)`. -/
structure Rect where
  x : ℚ
  y : ℚ
  width : ℚ
  height : ℚ
deriving DecidableEq, Repr

namespace Rect

/-- Accessor matching `rect.left`. -/
def left (r : Rect) : ℚ := r.x

/-- Accessor matching `rect.right`. -/
def right (r : Rect) : ℚ := r.x + r.width

/-- Accessor matching `rect.top`. -/
def top (r : Rect) : ℚ := r.y

/-- Accessor matching `rect.bottom`. -/
def bottom (r : Rect) : ℚ := r.y + r.height

/-- Mutation `rect.left = v`. -/
def setLeft (r : Rect) (v : ℚ) : Rect := { r with x := v }

/-- Mutation `rect.right = v` (pygame keeps the size and moves `x`). -/
def setRight (r : Rect) (v : ℚ) : Rect := { r with x := v - r.width }

/-- Mutation `rect.top = v`. -/
def setTop (r : Rect) (v : ℚ) : Rect := { r with y := v }

/-- Mutation `rect.bottom = v` (pygame keeps the size and moves `y`). -/
def setBottom (r : Rect) (v : ℚ) : Rect := { r with y := v - r.height }

end Rect

/-- Overlap test matching `pygame.Rect.colliderect`: true when the two
rectangles share interior area; rectangles that merely touch along an
edge do not collide. -/
def collide (a b : Rect) : Bool :=
  decide (a.left < b.right) && decide (b.left < a.right) &&
    decide (a.top < b.bottom) && decide (b.top < a.bottom)

theorem Rect.ext_xywh {a b : Rect} (hx : a.x = b.x) (hy : a.y = b.y)
    (hw : a.width = b.width) (hh : a.height = b.height) : a = b := by
  cases a; cases b
  simp_all

theorem collide_eq_true_iff (a b : Rect) :
    collide a b = true ↔
      a.x < b.x + b.width ∧ b.x < a.x + a.width ∧
        a.y < b.y + b.height ∧ b.y < a.y + a.height := by
  simp [collide, Rect.left, Rect.right, Rect.top, Rect.bottom, and_assoc]

theorem collide_eq_false_iff (a b : Rect) :
    collide a b = false ↔
      ¬(a.x < b.x + b.width ∧ b.x < a.x + a.width ∧
        a.y < b.y + b.height ∧ b.y < a.y + a.height) := by
  rw [← collide_eq_true_iff]
  cases collide a b <;> simp

/-! ## Kinematic state shared by the vertical collision pass -/

/-- Portion of an entity's kinematic state threaded through a vertical
collision pass: the rect, the vertical velocity (which the pass zeroes
on a snap and re-tests on every later tile) and the grounded flag. -/
structure VState where
  rect : Rect
  velocityY : ℚ
  onGround : Bool
deriving DecidableEq, Repr

/-- Loop body shared by `Player.check_vertical_collisions` and
`Enemy.check_vertical_collisions` for one solid tile: when the moved
rect overlaps the tile, a falling body is snapped onto the tile top and
grounded, a rising body is snapped below the tile bottom; in both cases
the vertical velocity is zeroed. -/
def vSolidStep (s : VState) (t : Rect) : VState :=
  if collide s.rect t then
    if s.velocityY > 0 then ⟨s.rect.setBottom t.top, 0, true⟩
    else if s.velocityY < 0 then ⟨s.rect.setTop t.bottom, 0, s.onGround⟩
    else s
  else s

/-- Loop body of the enemy pass for one one-way tile
(src/enemy.py lines 166-171): any falling overlap snaps the body onto
the platform; there is no previous-bottom test. -/
def vOneWayStepEnemy (s : VState) (t : Rect) : VState :=
  if collide s.rect t then
    if s.velocityY > 0 then ⟨s.rect.setBottom t.top, 0, true⟩
    else s
  else s

/-- Loop body of the player pass for one one-way tile
(src/player.py lines 216-223): the snap additionally requires the
previous-frame bottom to be at or above the platform top. -/
def vOneWayStepPlayer (prevBottom : ℚ) (s : VState) (t : Rect) : VState :=
  if collide s.rect t then
    if s.velocityY > 0 ∧ prevBottom ≤ t.top then ⟨s.rect.setBottom t.top, 0, true⟩
    else s
  else s

/-- Clamp to the level bottom, shared by both vertical passes: a body
whose bottom reaches the level height is snapped onto the level floor,
its vertical velocity zeroed and grounded set. -/
def clampLevelBottom (levelHeight : ℚ) (s : VState) : VState :=
  if s.rect.bottom ≥ levelHeight then ⟨s.rect.setBottom levelHeight, 0, true⟩ else s

/-- Enemy vertical pass `Enemy.check_vertical_collisions`
(src/enemy.py lines 150-177): grounded is reset, solid tiles are
resolved, then one-way tiles, then the level-bottom clamp.  There is no
anti-flicker probe in the enemy pass. -/
def enemyCheckVertical (solid oneWay : List Rect) (levelHeight : ℚ)
    (r : Rect) (vy : ℚ) : VState :=
  clampLevelBottom levelHeight
    ((oneWay.foldl vOneWayStepEnemy (solid.foldl vSolidStep ⟨r, vy, false⟩)))

/-- One-pixel-below support probe of the player's anti-flicker rule
(src/player.py lines 236-250): the rect is shifted down one pixel and
tested against the solid tiles, then the one-way tiles. -/
def probeBelow (solid oneWay : List Rect) (r : Rect) : Bool :=
  let test : Rect := { r with y := r.y + 1 }
  solid.any (fun t => collide test t) || oneWay.any (fun t => collide test t)

/-- Player vertical pass `Player.check_vertical_collisions`
(src/player.py lines 194-250): solid tiles, one-way tiles with the
previous-bottom rule, the level-bottom clamp, then the anti-flicker
probe when the velocity is zero, the previous frame was grounded and
this pass has not re-grounded the body.  The `can_jump` flag and the
timer bookkeeping of the source are omitted. -/
def playerCheckVertical (solid oneWay : List Rect) (prevBottom levelHeight : ℚ)
    (wasGrounded : Bool) (r : Rect) (vy : ℚ) : VState :=
  let s := clampLevelBottom levelHeight
    (oneWay.foldl (vOneWayStepPlayer prevBottom) (solid.foldl vSolidStep ⟨r, vy, false⟩))
  if s.velocityY = 0 ∧ wasGrounded = true ∧ s.onGround = false then
    if probeBelow solid oneWay s.rect then { s with onGround := true } else s
  else s

/-! ## Enemy kinematic chassis -/

/-- Kinematic state of the base `Enemy` (src/enemy.py).  The fields of
the source that feed the move-and-collide pass are kept; health and
drawing fields are omitted. -/
structure EnemyState where
  rect : Rect
  speed : ℚ
  direction : ℚ
  velocityX : ℚ
  velocityY : ℚ
  gravity : ℚ
  maxFallSpeed : ℚ
  onGround : Bool
  active : Bool
deriving DecidableEq, Repr

/-- Gravity application of `Enemy.update` (src/enemy.py lines 114-117):
skipped while grounded, otherwise the vertical velocity grows by
`gravity`, capped at `max_fall_speed`. -/
def enemyApplyGravity (e : EnemyState) : EnemyState :=
  if e.onGround then e
  else
    let vy := e.velocityY + e.gravity
    { e with velocityY := if vy > e.maxFallSpeed then e.maxFallSpeed else vy }

/-- Loop body of `Enemy.check_horizontal_collisions`
(src/enemy.py lines 140-148) for one solid tile, threading the rect and
the patrol direction; every overlap also reverses the direction. -/
def hStepEnemy (vx : ℚ) (s : Rect × ℚ) (t : Rect) : Rect × ℚ :=
  if collide s.1 t then
    (if vx > 0 then s.1.setRight t.left
     else if vx < 0 then s.1.setLeft t.right
     else s.1, -s.2)
  else s

/-- Horizontal pass `Enemy.check_horizontal_collisions`: fold of
`hStepEnemy` over the solid tiles (one-way tiles are never consulted
horizontally). -/
def enemyCheckHorizontal (vx : ℚ) (solid : List Rect) (r : Rect) (dir : ℚ) : Rect × ℚ :=
  solid.foldl (hStepEnemy vx) (r, dir)

/-- Horizontal part of `Enemy.update` (src/enemy.py lines 119-132):
the x move, the level-boundary clamp with direction reversal, then the
solid-tile resolution; returns the rect and the (possibly repeatedly
reversed) direction. -/
def enemyHorizontalStage (solid : List Rect) (levelWidth : ℚ)
    (e : EnemyState) : Rect × ℚ :=
  let rMoved : Rect := { e.rect with x := e.rect.x + e.velocityX }
  let bd : Rect × ℚ :=
    if rMoved.left ≤ 0 then (rMoved.setLeft 0, -e.direction)
    else if rMoved.right ≥ levelWidth then (rMoved.setRight levelWidth, -e.direction)
    else (rMoved, e.direction)
  enemyCheckHorizontal e.velocityX solid bd.1 bd.2

/-- Frame update `Enemy.update` (src/enemy.py lines 101-138), which is
also the algorithm of `BossEnemy.normal_movement`: behavior velocity,
gravity, horizontal move with level-boundary reversal and solid-tile
resolution, then vertical move with the vertical pass. -/
def enemyUpdate (solid oneWay : List Rect) (levelHeight levelWidth : ℚ)
    (e : EnemyState) : EnemyState :=
  if e.active = false then e
  else
    let e1 := enemyApplyGravity { e with velocityX := e.direction * e.speed }
    let hc := enemyHorizontalStage solid levelWidth e1
    let v := enemyCheckVertical solid oneWay levelHeight
      { hc.1 with y := hc.1.y + e1.velocityY } e1.velocityY
    { e1 with
      rect := v.rect
      direction := hc.2
      velocityY := v.velocityY
      onGround := v.onGround }

/-! ## Player health interface -/

/-- Health-related slice of the `Player` state (src/player.py): hearts,
the invulnerability window and the dash flag that grants damage
immunity.  Times are milliseconds on the monotonic clock. -/
structure PlayerHealth where
  hearts : ℤ
  maxHearts : ℤ
  invulnerable : Bool
  invulnerableTime : ℤ
  isDashing : Bool
deriving DecidableEq, Repr

/-- Damage entry point `Player.take_damage` (src/player.py lines
534-544): guarded by not invulnerable, not dashing and positive hearts;
otherwise hearts drop by `damage` with a floor of 0 and the
invulnerability window starts at `currentTime`. -/
def takeDamage (currentTime damage : ℤ) (p : PlayerHealth) : PlayerHealth :=
  if p.invulnerable = false ∧ p.isDashing = false ∧ p.hearts > 0 then
    let hearts := p.hearts - damage
    { p with
      hearts := if hearts < 0 then 0 else hearts
      invulnerable := true
      invulnerableTime := currentTime }
  else p

/-- Healing entry point `Player.heal` (src/player.py lines 546-550):
hearts grow by `amount`, capped at `max_hearts`. -/
def heal (amount : ℤ) (p : PlayerHealth) : PlayerHealth :=
  let hearts := p.hearts + amount
  { p with hearts := if hearts > p.maxHearts then p.maxHearts else hearts }

/-- One public health call: a `take_damage` at some clock time with a
(nonnegative) damage amount, or a `heal` with a (nonnegative) amount.
Damage and heal amounts are heart counts, hence naturals. -/
inductive HealthOp where
  | damage (currentTime : ℤ) (amount : ℕ)
  | healOp (amount : ℕ)
deriving DecidableEq, Repr

/-- Apply one public health call. -/
def applyHealthOp (p : PlayerHealth) : HealthOp → PlayerHealth
  | .damage t a => takeDamage t (a : ℤ) p
  | .healOp a => heal (a : ℤ) p

/-- Apply a sequence of interleaved `take_damage` / `heal` calls. -/
def applyHealthOps (ops : List HealthOp) (p : PlayerHealth) : PlayerHealth :=
  ops.foldl applyHealthOp p

/-! ## Boss attack selection -/

/-- The three boss attacks of `BossEnemy` (src/enemy.py). -/
inductive BossAttack where
  | jumpShoot
  | jumpSlam
  | ultimate
deriving DecidableEq, Repr

/-- Attack selection `BossEnemy.choose_attack` (src/enemy.py lines
694-703): the counter is incremented first; every 4th attack is forced
`ultimate`, otherwise `random.choice` picks between the two jump
attacks — the random draw is modelled by the boolean `pick`. -/
def chooseAttack (counter : ℕ) (pick : Bool) : ℕ × BossAttack :=
  let c := counter + 1
  (c, if c % 4 = 0 then .ultimate
      else if pick then .jumpShoot else .jumpSlam)

/-! ## Level: boss tile removal and exit unlock -/

/-- One collectible of the level: its rect and the collected flag. -/
structure Collectible where
  rect : Rect
  collected : Bool
deriving DecidableEq, Repr

/-- Slice of the `Level` state (src/level.py) that boss tile removal
and the exit-unlock query read and write. -/
structure LevelState where
  solidTiles : List Rect
  removableTiles : List Rect
  collectibles : List Collectible
  bossDefeated : Bool
deriving DecidableEq, Repr

/-- Boss tile removal `Level.remove_boss_tiles` (src/level.py lines
186-194): a one-shot guarded by `boss_defeated`; the first call removes
each removable tile from `solid_tiles` (Python's guarded `list.remove`
drops the first occurrence by value, which is `List.erase`). -/
def removeBossTiles (L : LevelState) : LevelState :=
  if L.bossDefeated = false then
    { L with
      bossDefeated := true
      solidTiles := L.removableTiles.foldl (fun s t => s.erase t) L.solidTiles }
  else L

/-- Exit gate `Level.is_exit_unlocked` (src/level.py lines 402-406):
counts the collected collectibles and compares with the total; an empty
collectible list unlocks immediately. -/
def isExitUnlocked (L : LevelState) : Bool :=
  let total := L.collectibles.length
  let collected := L.collectibles.countP (fun it => it.collected)
  total = 0 ∨ collected = total

/-! ## Ambush enemy

The `AmbushEnemy` (src/enemy.py lines 257-561) is gravity-exempt and
runs an Idle → Attacking → Staying → Returning state machine.  The
square-root function of the source (`math.sqrt` / `** 0.5` on floats)
is an explicit parameter `sqrtF`, and the cone tangent
`math.tan(math.radians(37.5))` is the parameter `tanHalf`; the claims
proved below constrain only how the code branches on those values. -/

/-- Accessor matching `rect.centerx` (all ambush widths are even, so
pygame's floor division by two is exact division). -/
def centerx (r : Rect) : ℚ := r.x + r.width / 2

/-- Accessor matching `rect.centery`. -/
def centery (r : Rect) : ℚ := r.y + r.height / 2

/-- Mutation `rect.centerx = v`. -/
def setCenterx (r : Rect) (v : ℚ) : Rect := { r with x := v - r.width / 2 }

/-- Mutation `rect.centery = v`. -/
def setCentery (r : Rect) (v : ℚ) : Rect := { r with y := v - r.height / 2 }

/-- Constant `self.detection_range = 500`. -/
def detectionRange : ℚ := 500

/-- Constant `self.max_dash_distance = 500`. -/
def maxDashDistance : ℚ := 500

/-- Constant `self.dash_speed = 5`. -/
def ambushDashSpeed : ℚ := 5

/-- Constant `self.return_speed = 2`. -/
def ambushReturnSpeed : ℚ := 2

/-- Constant `self.stay_duration = 120`. -/
def stayDuration : ℤ := 120

/-- Constant `self.max_attack_cooldown = 180`. -/
def maxAttackCooldown : ℤ := 180

/-- State of an `AmbushEnemy` relevant to its update.  The hang
position is always set by `__init__`, so it is a plain pair. -/
structure AmbushState where
  rect : Rect
  velocityX : ℚ
  velocityY : ℚ
  active : Bool
  isAttacking : Bool
  isStaying : Bool
  isReturning : Bool
  attackCooldown : ℤ
  stayTimer : ℤ
  targetPosition : Option (ℚ × ℚ)
  attackStartPosition : Option (ℚ × ℚ)
  hangingPosition : ℚ × ℚ
deriving DecidableEq, Repr

/-- Cone test `AmbushEnemy.is_within_attack_cone` (src/enemy.py lines
323-341): the player must be strictly below, and the horizontal offset
within the widening cone `|dx| ≤ dy * tan(37.5°)`.  The source also
computes the euclidean distance but never uses it. -/
def isWithinAttackCone (tanHalf dx dy : ℚ) : Bool :=
  if dy ≤ 0 then false
  else |dx| ≤ dy * tanHalf

/-- Line-of-sight test `AmbushEnemy.has_clear_path_to_player`
(src/enemy.py lines 343-366): ten sample points along the segment, each
probed with a 10×10 rect against the solid tiles only. -/
def hasClearPathToPlayer (solid : List Rect) (startX startY px py : ℚ) : Bool :=
  (List.range 10).all fun i =>
    let t : ℚ := ((i : ℚ) + 1) / 10
    let checkX := startX + t * (px - startX)
    let checkY := startY + t * (py - startY)
    let checkRect : Rect := ⟨checkX - 5, checkY - 5, 10, 10⟩
    solid.all fun tile => !(collide checkRect tile)

/-- Dash-target computation of the attack trigger (src/enemy.py lines
414-433): the player's center (player size 32×48), clamped to at most
`max_dash_distance` from the enemy center. -/
def dashTarget (sqrtF : ℚ → ℚ) (px py : ℚ) (r : Rect) : ℚ × ℚ :=
  let pcx := px + 16
  let pcy := py + 24
  let tdx := pcx - centerx r
  let tdy := pcy - centery r
  let ttd := sqrtF (tdx ^ 2 + tdy ^ 2)
  if ttd > maxDashDistance then
    let scale := maxDashDistance / ttd
    (centerx r + tdx * scale, centery r + tdy * scale)
  else (pcx, pcy)

/-- Attack initiation block of `AmbushEnemy.update` (src/enemy.py lines
409-447), entered once the detection checks pass: store the start
position and clamped target, assign the dash velocity only when the
distance to the target is positive (the explicit zero-distance guard),
then arm the cooldown. -/
def startAttack (sqrtF : ℚ → ℚ) (px py : ℚ) (a : AmbushState) : AmbushState :=
  let tp := dashTarget sqrtF px py a.rect
  let dcx := tp.1 - centerx a.rect
  let dcy := tp.2 - centery a.rect
  let dc := sqrtF (dcx ^ 2 + dcy ^ 2)
  let a1 := { a with
    isAttacking := true
    attackStartPosition := some (centerx a.rect, centery a.rect)
    targetPosition := some tp }
  let a2 :=
    if dc > 0 then
      { a1 with
        velocityX := dcx / dc * ambushDashSpeed
        velocityY := dcy / dc * ambushDashSpeed }
    else a1
  { a2 with attackCooldown := maxAttackCooldown }

/-- Detection guard of the attack trigger (src/enemy.py lines 399-407):
range, cone and line-of-sight must all pass. -/
def ambushTrigger (sqrtF : ℚ → ℚ) (tanHalf : ℚ) (solid : List Rect)
    (px py : ℚ) (a : AmbushState) : AmbushState :=
  let dx := px - centerx a.rect
  let dy := py - centery a.rect
  let td := sqrtF (dx ^ 2 + dy ^ 2)
  if td ≤ detectionRange ∧ isWithinAttackCone tanHalf dx dy = true ∧
      hasClearPathToPlayer solid (centerx a.rect) (centery a.rect) px py = true then
    startAttack sqrtF px py a
  else a

/-- Dash branch of `AmbushEnemy.update` (src/enemy.py lines 450-497),
with target `tp` and attack start `sp`: stop at the target or at the
dash range limit, snap on overshoot, otherwise advance by the dash
velocity. -/
def dashStep (sqrtF : ℚ → ℚ) (tp sp : ℚ × ℚ) (a : AmbushState) : AmbushState :=
  let dfs := sqrtF ((centerx a.rect - sp.1) ^ 2 + (centery a.rect - sp.2) ^ 2)
  let dtt := sqrtF ((tp.1 - centerx a.rect) ^ 2 + (tp.2 - centery a.rect) ^ 2)
  if dtt ≤ 20 ∨ dfs ≥ maxDashDistance then
    { a with
      isAttacking := false, isStaying := true, stayTimer := stayDuration
      velocityX := 0, velocityY := 0, attackStartPosition := none }
  else
    let nextX := a.rect.x + a.velocityX
    let nextY := a.rect.y + a.velocityY
    let ncx := nextX + a.rect.width / 2
    let ncy := nextY + a.rect.height / 2
    let ndtt := sqrtF ((tp.1 - ncx) ^ 2 + (tp.2 - ncy) ^ 2)
    if ndtt > dtt then
      { a with
        rect := setCentery (setCenterx a.rect tp.1) tp.2
        isAttacking := false, isStaying := true, stayTimer := stayDuration
        velocityX := 0, velocityY := 0, attackStartPosition := none }
    else
      { a with rect := { a.rect with x := nextX, y := nextY } }

/-- Staying branch (src/enemy.py lines 500-512): count the stay timer
down motionless, then hand over to Returning. -/
def stayStep (a : AmbushState) : AmbushState :=
  let a1 := { a with stayTimer := a.stayTimer - 1, velocityX := 0, velocityY := 0 }
  if a1.stayTimer ≤ 0 then
    { a1 with isStaying := false, isReturning := true, targetPosition := none }
  else a1

/-- Returning branch (src/enemy.py lines 515-538): move at
`return_speed` toward the hang position while farther than 5 px away,
otherwise snap exactly onto it, zero the velocity and leave the
Returning state. -/
def returnStep (sqrtF : ℚ → ℚ) (a : AmbushState) : AmbushState :=
  let hx := a.hangingPosition.1
  let hy := a.hangingPosition.2
  let dx := hx - a.rect.x
  let dy := hy - a.rect.y
  let td := sqrtF (dx ^ 2 + dy ^ 2)
  if td > 5 then
    let vx := dx / td * ambushReturnSpeed
    let vy := dy / td * ambushReturnSpeed
    { a with
      velocityX := vx, velocityY := vy
      rect := { a.rect with x := a.rect.x + vx, y := a.rect.y + vy } }
  else
    { a with
      rect := { a.rect with x := hx, y := hy }
      velocityX := 0, velocityY := 0, isReturning := false }

/-- Idle branch (src/enemy.py lines 541-548): rest at the hang position
with zero velocity (the stored hang pair is always truthy in the
source). -/
def idleStep (a : AmbushState) : AmbushState :=
  { a with
    velocityX := 0, velocityY := 0
    rect := { a.rect with x := a.hangingPosition.1, y := a.hangingPosition.2 } }

/-- Branch dispatch below the dash branch: Staying, then Returning,
then Idle (the elif chain of src/enemy.py lines 500-548). -/
def ambushRest (sqrtF : ℚ → ℚ) (a : AmbushState) : AmbushState :=
  if a.isStaying = true then stayStep a
  else if a.isReturning = true then returnStep sqrtF a
  else idleStep a

/-- Level-bound clamps of `AmbushEnemy.update` (src/enemy.py lines
551-561), applied only when neither attacking nor returning. -/
def ambushClampBounds (levelHeight levelWidth : ℚ) (a : AmbushState) : AmbushState :=
  if a.isAttacking = false ∧ a.isReturning = false then
    let r1 :=
      if a.rect.left ≤ 0 then a.rect.setLeft 0
      else if a.rect.right ≥ levelWidth then a.rect.setRight levelWidth
      else a.rect
    let r2 :=
      if r1.top ≤ 0 then r1.setTop 0
      else if r1.bottom ≥ levelHeight then r1.setBottom levelHeight
      else r1
    { a with rect := r2 }
  else a

/-- Cooldown tick of `AmbushEnemy.update` (src/enemy.py lines
390-393): the attack cooldown decrements only while the enemy is idle
(neither attacking, staying nor returning). -/
def ambushCooldownTick (a : AmbushState) : AmbushState :=
  if a.attackCooldown > 0 ∧ a.isAttacking = false ∧ a.isStaying = false ∧
      a.isReturning = false then
    { a with attackCooldown := a.attackCooldown - 1 }
  else a

/-- Trigger stage of `AmbushEnemy.update` (src/enemy.py lines
396-407): the attack may start only when a player position is present,
the cooldown has expired and the enemy is idle. -/
def ambushTriggerStage (sqrtF : ℚ → ℚ) (tanHalf : ℚ) (solid : List Rect)
    (playerPos : Option (ℚ × ℚ)) (a : AmbushState) : AmbushState :=
  match playerPos with
  | some p =>
    if a.attackCooldown = 0 ∧ a.isAttacking = false ∧ a.isStaying = false ∧
        a.isReturning = false then
      ambushTrigger sqrtF tanHalf solid p.1 p.2 a
    else a
  | none => a

/-- Branch dispatch of `AmbushEnemy.update` (src/enemy.py lines
450-548): the dash branch needs the attacking flag plus stored target
and start positions (Python truthiness of the two tuples), otherwise
the staying / returning / idle chain runs. -/
def ambushBranch (sqrtF : ℚ → ℚ) (a : AmbushState) : AmbushState :=
  if a.isAttacking = true then
    match a.targetPosition, a.attackStartPosition with
    | some tp, some sp => dashStep sqrtF tp sp a
    | some _, none => ambushRest sqrtF a
    | none, _ => ambushRest sqrtF a
  else ambushRest sqrtF a

/-- Frame update `AmbushEnemy.update` (src/enemy.py lines 385-561):
cooldown tick, attack trigger, dash / staying / returning / idle
branch, then the bound clamps. -/
def ambushUpdate (sqrtF : ℚ → ℚ) (tanHalf : ℚ) (solid : List Rect)
    (levelHeight levelWidth : ℚ) (playerPos : Option (ℚ × ℚ))
    (a : AmbushState) : AmbushState :=
  if a.active = false then a
  else
    ambushClampBounds levelHeight levelWidth
      (ambushBranch sqrtF
        (ambushTriggerStage sqrtF tanHalf solid playerPos (ambushCooldownTick a)))

/-! ## Division-checked ambush update

`ambushUpdateChecked` is `ambushUpdate` with every state-dependent
division routed through `nzDiv`, which fails (returns `none`) on a zero
denominator.  Proving it always returns `some` of the plain update is
the no-division-by-zero safety statement for `AmbushEnemy.update`.
The only other divisions in the source are by the literal constants 2
(rect centers) and 10 (the ten line-of-sight samples), which are
nonzero syntactically. -/

/-- Division that fails on a zero denominator instead of defaulting. -/
def nzDiv (a b : ℚ) : Option ℚ := if b = 0 then none else some (a / b)

/-- Division-checked `dashTarget`. -/
def dashTargetChecked (sqrtF : ℚ → ℚ) (px py : ℚ) (r : Rect) : Option (ℚ × ℚ) :=
  let pcx := px + 16
  let pcy := py + 24
  let tdx := pcx - centerx r
  let tdy := pcy - centery r
  let ttd := sqrtF (tdx ^ 2 + tdy ^ 2)
  if ttd > maxDashDistance then
    (nzDiv maxDashDistance ttd).bind fun scale =>
      some (centerx r + tdx * scale, centery r + tdy * scale)
  else some (pcx, pcy)

/-- Division-checked `startAttack`. -/
def startAttackChecked (sqrtF : ℚ → ℚ) (px py : ℚ) (a : AmbushState) :
    Option AmbushState :=
  (dashTargetChecked sqrtF px py a.rect).bind fun tp =>
    let dcx := tp.1 - centerx a.rect
    let dcy := tp.2 - centery a.rect
    let dc := sqrtF (dcx ^ 2 + dcy ^ 2)
    let a1 := { a with
      isAttacking := true
      attackStartPosition := some (centerx a.rect, centery a.rect)
      targetPosition := some tp }
    let a2 :=
      if dc > 0 then
        (nzDiv dcx dc).bind fun dirx =>
          (nzDiv dcy dc).bind fun diry =>
            some { a1 with
              velocityX := dirx * ambushDashSpeed
              velocityY := diry * ambushDashSpeed }
      else some a1
    a2.bind fun a3 => some { a3 with attackCooldown := maxAttackCooldown }

/-- Division-checked `ambushTrigger`. -/
def ambushTriggerChecked (sqrtF : ℚ → ℚ) (tanHalf : ℚ) (solid : List Rect)
    (px py : ℚ) (a : AmbushState) : Option AmbushState :=
  let dx := px - centerx a.rect
  let dy := py - centery a.rect
  let td := sqrtF (dx ^ 2 + dy ^ 2)
  if td ≤ detectionRange ∧ isWithinAttackCone tanHalf dx dy = true ∧
      hasClearPathToPlayer solid (centerx a.rect) (centery a.rect) px py = true then
    startAttackChecked sqrtF px py a
  else some a

/-- Division-checked `returnStep`. -/
def returnStepChecked (sqrtF : ℚ → ℚ) (a : AmbushState) : Option AmbushState :=
  let hx := a.hangingPosition.1
  let hy := a.hangingPosition.2
  let dx := hx - a.rect.x
  let dy := hy - a.rect.y
  let td := sqrtF (dx ^ 2 + dy ^ 2)
  if td > 5 then
    (nzDiv dx td).bind fun dirx =>
      (nzDiv dy td).bind fun diry =>
        let vx := dirx * ambushReturnSpeed
        let vy := diry * ambushReturnSpeed
        some { a with
          velocityX := vx, velocityY := vy
          rect := { a.rect with x := a.rect.x + vx, y := a.rect.y + vy } }
  else
    some { a with
      rect := { a.rect with x := hx, y := hy }
      velocityX := 0, velocityY := 0, isReturning := false }

/-- Division-checked branch dispatch below the dash branch. -/
def ambushRestChecked (sqrtF : ℚ → ℚ) (a : AmbushState) : Option AmbushState :=
  if a.isStaying = true then some (stayStep a)
  else if a.isReturning = true then returnStepChecked sqrtF a
  else some (idleStep a)

/-- Division-checked trigger stage. -/
def ambushTriggerStageChecked (sqrtF : ℚ → ℚ) (tanHalf : ℚ) (solid : List Rect)
    (playerPos : Option (ℚ × ℚ)) (a : AmbushState) : Option AmbushState :=
  match playerPos with
  | some p =>
    if a.attackCooldown = 0 ∧ a.isAttacking = false ∧ a.isStaying = false ∧
        a.isReturning = false then
      ambushTriggerChecked sqrtF tanHalf solid p.1 p.2 a
    else some a
  | none => some a

/-- Division-checked branch dispatch. -/
def ambushBranchChecked (sqrtF : ℚ → ℚ) (a : AmbushState) : Option AmbushState :=
  if a.isAttacking = true then
    match a.targetPosition, a.attackStartPosition with
    | some tp, some sp => some (dashStep sqrtF tp sp a)
    | some _, none => ambushRestChecked sqrtF a
    | none, _ => ambushRestChecked sqrtF a
  else ambushRestChecked sqrtF a

/-- Division-checked `AmbushEnemy.update`. -/
def ambushUpdateChecked (sqrtF : ℚ → ℚ) (tanHalf : ℚ) (solid : List Rect)
    (levelHeight levelWidth : ℚ) (playerPos : Option (ℚ × ℚ))
    (a : AmbushState) : Option AmbushState :=
  if a.active = false then some a
  else
    (ambushTriggerStageChecked sqrtF tanHalf solid playerPos (ambushCooldownTick a)).bind
      fun b => (ambushBranchChecked sqrtF b).bind
        fun c => some (ambushClampBounds levelHeight levelWidth c)

/-! ## Claim C5: boss attack selection -/

/-- C5: every 4th attack chosen by `BossEnemy.choose_attack`
(attack_counter divisible by 4 after the increment) is `ultimate`
regardless of the random draw, every other choice is one of the two
jump attacks, and starting from a fresh counter the four first calls
produce counters 1,2,3,4 with the pattern random, random, random,
ultimate. -/
theorem boss_every_fourth_attack_ultimate :
    (∀ (counter : ℕ) (pick : Bool),
      ((chooseAttack counter pick).1 % 4 = 0 →
        (chooseAttack counter pick).2 = BossAttack.ultimate) ∧
      ((chooseAttack counter pick).1 % 4 ≠ 0 →
        (chooseAttack counter pick).2 = BossAttack.jumpShoot ∨
          (chooseAttack counter pick).2 = BossAttack.jumpSlam)) ∧
    (∀ p1 p2 p3 p4 : Bool,
      (chooseAttack 0 p1).1 = 1 ∧
      (chooseAttack (chooseAttack 0 p1).1 p2).1 = 2 ∧
      (chooseAttack (chooseAttack (chooseAttack 0 p1).1 p2).1 p3).1 = 3 ∧
      (chooseAttack (chooseAttack (chooseAttack (chooseAttack 0 p1).1 p2).1 p3).1 p4).1 = 4 ∧
      ((chooseAttack 0 p1).2 = BossAttack.jumpShoot ∨
        (chooseAttack 0 p1).2 = BossAttack.jumpSlam) ∧
      ((chooseAttack (chooseAttack 0 p1).1 p2).2 = BossAttack.jumpShoot ∨
        (chooseAttack (chooseAttack 0 p1).1 p2).2 = BossAttack.jumpSlam) ∧
      ((chooseAttack (chooseAttack (chooseAttack 0 p1).1 p2).1 p3).2 = BossAttack.jumpShoot ∨
        (chooseAttack (chooseAttack (chooseAttack 0 p1).1 p2).1 p3).2 = BossAttack.jumpSlam) ∧
      (chooseAttack (chooseAttack (chooseAttack (chooseAttack 0 p1).1 p2).1 p3).1 p4).2 =
        BossAttack.ultimate) := by
  constructor
  · intro counter pick
    constructor
    · intro h
      simp only [chooseAttack] at h ⊢
      rw [if_pos h]
    · intro h
      simp only [chooseAttack] at h ⊢
      rw [if_neg h]
      cases pick
      · exact Or.inr rfl
      · exact Or.inl rfl
  · intro p1 p2 p3 p4
    cases p1 <;> cases p2 <;> cases p3 <;> cases p4 <;> decide

/-- C5 witness: the theorem applied at counter 3 (so the produced
counter is 4) with a concrete random draw. -/
theorem boss_every_fourth_attack_ultimate_witness :
    (chooseAttack 3 true).1 % 4 = 0 ∧ (chooseAttack 3 true).2 = BossAttack.ultimate :=
  ⟨by decide, (boss_every_fourth_attack_ultimate.1 3 true).1 (by decide)⟩

/-! ## Claim C9: exit unlock -/

/-- C9: `Level.is_exit_unlocked` returns true exactly when every
collectible is collected, and in particular returns true on a level
with no collectibles. -/
theorem exit_unlocked_iff_all_collected :
    ∀ L : LevelState,
      (isExitUnlocked L = true ↔ ∀ c ∈ L.collectibles, c.collected = true) ∧
      (L.collectibles = [] → isExitUnlocked L = true) := by
  intro L
  constructor
  · simp only [isExitUnlocked, decide_eq_true_eq]
    constructor
    · rintro (h0 | hc)
      · intro c hc2
        rw [List.length_eq_zero] at h0
        rw [h0] at hc2
        cases hc2
      · intro c hmem
        have hall := List.countP_eq_length.mp hc
        simpa using hall c hmem
    · intro hall
      exact Or.inr (List.countP_eq_length.mpr (fun a ha => by simpa using hall a ha))
  · intro h
    simp [isExitUnlocked, h]

/-- C9 witness: a level with an empty collectible list is unlocked, and
a level whose single collectible is collected is unlocked. -/
theorem exit_unlocked_iff_all_collected_witness :
    isExitUnlocked ⟨[], [], [], false⟩ = true ∧
      isExitUnlocked ⟨[], [], [⟨⟨0, 0, 16, 16⟩, true⟩], false⟩ = true :=
  ⟨(exit_unlocked_iff_all_collected ⟨[], [], [], false⟩).2 rfl,
    (exit_unlocked_iff_all_collected ⟨[], [], [⟨⟨0, 0, 16, 16⟩, true⟩], false⟩).1.mpr
      (by intro c hc; simp at hc; rw [hc])⟩

/-! ## Claim C6: boss tile removal -/

theorem mem_of_mem_foldl_erase {r : Rect} :
    ∀ (rem s : List Rect), r ∈ rem.foldl (fun acc t => acc.erase t) s → r ∈ s := by
  intro rem
  induction rem with
  | nil => intro s h; exact h
  | cons t rest ih =>
    intro s h
    exact List.mem_of_mem_erase (ih (s.erase t) h)

theorem not_mem_foldl_erase_of_mem {r : Rect} :
    ∀ (rem s : List Rect), s.Nodup → r ∈ rem →
      r ∉ rem.foldl (fun acc t => acc.erase t) s := by
  intro rem
  induction rem with
  | nil => intro s _ h; cases h
  | cons t rest ih =>
    intro s hnd hmem hcontra
    rcases List.mem_cons.mp hmem with heq | hrest
    · subst heq
      have hin : r ∈ s.erase r := mem_of_mem_foldl_erase rest (s.erase r) hcontra
      exact ((List.Nodup.mem_erase_iff hnd).mp hin).1 rfl
    · exact ih (s.erase t) (hnd.erase t) hrest hcontra

/-- C6: boss tile removal is idempotent — a second call to
`Level.remove_boss_tiles` leaves the whole level state exactly as after
the first call — and the first call sets the one-shot `boss_defeated`
flag and (for a duplicate-free solid list, which the CSV loader
guarantees by building distinct rects) removes every removable tile
from the solid list. -/
theorem remove_boss_tiles_idempotent :
    (∀ L : LevelState, removeBossTiles (removeBossTiles L) = removeBossTiles L) ∧
    (∀ L : LevelState, L.bossDefeated = false →
      (removeBossTiles L).bossDefeated = true ∧
      (L.solidTiles.Nodup →
        ∀ r ∈ L.removableTiles, r ∉ (removeBossTiles L).solidTiles)) := by
  constructor
  · intro L
    by_cases h : L.bossDefeated = false
    · have h1 : removeBossTiles L =
          { L with
            bossDefeated := true
            solidTiles := L.removableTiles.foldl (fun s t => s.erase t) L.solidTiles } := by
        rw [removeBossTiles, if_pos h]
      rw [h1, removeBossTiles]
      simp
    · have h1 : removeBossTiles L = L := by
        rw [removeBossTiles, if_neg h]
      rw [h1]
      exact h1
  · intro L h
    constructor
    · rw [removeBossTiles, if_pos h]
    · intro hnd r hmem
      rw [removeBossTiles, if_pos h]
      exact not_mem_foldl_erase_of_mem L.removableTiles L.solidTiles hnd hmem

/-- C6 witness: a concrete level with one removable tile among two
solid tiles; the first call removes it and sets the flag, and calling
twice equals calling once. -/
theorem remove_boss_tiles_idempotent_witness :
    removeBossTiles (removeBossTiles
        ⟨[⟨0, 0, 64, 64⟩, ⟨64, 0, 64, 64⟩], [⟨64, 0, 64, 64⟩], [], false⟩) =
      removeBossTiles
        ⟨[⟨0, 0, 64, 64⟩, ⟨64, 0, 64, 64⟩], [⟨64, 0, 64, 64⟩], [], false⟩ ∧
    (removeBossTiles
        ⟨[⟨0, 0, 64, 64⟩, ⟨64, 0, 64, 64⟩], [⟨64, 0, 64, 64⟩], [], false⟩).bossDefeated
      = true ∧
    (⟨64, 0, 64, 64⟩ : Rect) ∉ (removeBossTiles
        ⟨[⟨0, 0, 64, 64⟩, ⟨64, 0, 64, 64⟩], [⟨64, 0, 64, 64⟩], [], false⟩).solidTiles := by
  refine ⟨remove_boss_tiles_idempotent.1 _, ?_, ?_⟩
  · exact (remove_boss_tiles_idempotent.2 _ rfl).1
  · exact (remove_boss_tiles_idempotent.2 _ rfl).2 (by decide) _ (by decide)

/-! ## Claim C3: take_damage -/

/-- C3 counterexample: a player at 0 hearts who is neither invulnerable
nor dashing.  The claim states `take_damage` then decrements with a
floor of 0 and sets the invulnerable flag; the code's extra
`hearts > 0` guard makes the call a complete no-op, so the flag stays
false. -/
theorem take_damage_dead_counterexample :
    (⟨0, 3, false, 0, false⟩ : PlayerHealth).invulnerable = false ∧
    (⟨0, 3, false, 0, false⟩ : PlayerHealth).isDashing = false ∧
    takeDamage 100 1 ⟨0, 3, false, 0, false⟩ = ⟨0, 3, false, 0, false⟩ ∧
    ¬(takeDamage 100 1 ⟨0, 3, false, 0, false⟩).invulnerable = true := by
  refine ⟨rfl, rfl, ?_, ?_⟩ <;> decide

/-- C3 (amended): `Player.take_damage` is a no-op whenever the player
is invulnerable, dashing, or already at 0 hearts; otherwise it
decrements hearts by the damage amount with a floor of 0 and sets the
invulnerable flag with a fresh window. -/
theorem take_damage_characterization :
    ∀ (t d : ℤ) (p : PlayerHealth),
      (p.invulnerable = true ∨ p.isDashing = true ∨ p.hearts ≤ 0 →
        takeDamage t d p = p) ∧
      (p.invulnerable = false → p.isDashing = false → 0 < p.hearts →
        (takeDamage t d p).hearts = max (p.hearts - d) 0 ∧
        (takeDamage t d p).invulnerable = true ∧
        (takeDamage t d p).invulnerableTime = t ∧
        (takeDamage t d p).maxHearts = p.maxHearts ∧
        (takeDamage t d p).isDashing = p.isDashing) := by
  intro t d p
  constructor
  · intro h
    rw [takeDamage, if_neg]
    rintro ⟨h1, h2, h3⟩
    rcases h with h | h | h
    · rw [h] at h1; cases h1
    · rw [h] at h2; cases h2
    · omega
  · intro h1 h2 h3
    rw [takeDamage, if_pos ⟨h1, h2, h3⟩]
    refine ⟨?_, rfl, rfl, rfl, rfl⟩
    simp only
    split
    · omega
    · omega

/-- C3 witness: the scenario of the spec — a player with 3 hearts hit
while vulnerable ends at 2 hearts and invulnerable, and a second hit
inside the window leaves 2 hearts. -/
theorem take_damage_characterization_witness :
    (takeDamage 100 1 ⟨3, 3, false, 0, false⟩).hearts = 2 ∧
    (takeDamage 100 1 ⟨3, 3, false, 0, false⟩).invulnerable = true ∧
    takeDamage 300 1 (takeDamage 100 1 ⟨3, 3, false, 0, false⟩) =
      takeDamage 100 1 ⟨3, 3, false, 0, false⟩ := by
  have h := (take_damage_characterization 100 1 ⟨3, 3, false, 0, false⟩).2 rfl rfl
    (by decide)
  refine ⟨by rw [h.1]; decide, h.2.1, ?_⟩
  exact (take_damage_characterization 300 1 _).1 (Or.inl h.2.1)

/-! ## Claim C10: hearts bounds -/

theorem applyHealthOp_bounds (p : PlayerHealth) (op : HealthOp)
    (h0 : 0 ≤ p.hearts) (h1 : p.hearts ≤ p.maxHearts) :
    0 ≤ (applyHealthOp p op).hearts ∧
      (applyHealthOp p op).hearts ≤ (applyHealthOp p op).maxHearts := by
  cases op with
  | damage t a =>
    simp only [applyHealthOp, takeDamage]
    split
    · simp only
      constructor
      · split <;> omega
      · split <;> omega
    · exact ⟨h0, h1⟩
  | healOp a =>
    simp only [applyHealthOp, heal]
    constructor
    · split <;> omega
    · split <;> omega

/-- C10: starting from hearts within `[0, max_hearts]`, any interleaved
sequence of `take_damage` and `heal` calls (with nonnegative amounts)
keeps hearts within `[0, max_hearts]`, and `heal` computes exactly
`min (hearts + amount) max_hearts`. -/
theorem hearts_bounds_invariant :
    (∀ (ops : List HealthOp) (p : PlayerHealth),
      0 ≤ p.hearts → p.hearts ≤ p.maxHearts →
      0 ≤ (applyHealthOps ops p).hearts ∧
        (applyHealthOps ops p).hearts ≤ (applyHealthOps ops p).maxHearts) ∧
    (∀ (a : ℤ) (p : PlayerHealth), (heal a p).hearts = min (p.hearts + a) p.maxHearts) := by
  constructor
  · intro ops
    induction ops with
    | nil => intro p h0 h1; exact ⟨h0, h1⟩
    | cons op rest ih =>
      intro p h0 h1
      have hstep := applyHealthOp_bounds p op h0 h1
      exact ih (applyHealthOp p op) hstep.1 hstep.2
  · intro a p
    simp only [heal]
    split <;> omega

/-- C10 witness: a concrete interleaving — heal over the cap, then two
damages, then a heal — stays within bounds, and a concrete heal caps at
`max_hearts`. -/
theorem hearts_bounds_invariant_witness :
    0 ≤ (applyHealthOps
        [.healOp 5, .damage 100 1, .damage 2000 2, .healOp 1]
        ⟨2, 3, false, 0, false⟩).hearts ∧
    (applyHealthOps [.healOp 5, .damage 100 1, .damage 2000 2, .healOp 1]
        ⟨2, 3, false, 0, false⟩).hearts ≤
      (applyHealthOps [.healOp 5, .damage 100 1, .damage 2000 2, .healOp 1]
        ⟨2, 3, false, 0, false⟩).maxHearts ∧
    (heal 5 ⟨2, 3, false, 0, false⟩).hearts = min (2 + 5 : ℤ) 3 := by
  refine ⟨?_, ?_, hearts_bounds_invariant.2 5 ⟨2, 3, false, 0, false⟩⟩
  · exact (hearts_bounds_invariant.1 _ _ (by decide) (by decide)).1
  · exact (hearts_bounds_invariant.1 _ _ (by decide) (by decide)).2

/-! ## Claim C7: ambush return round-trip -/

/-- C7: a returning ambush enemy whose distance to the hang position
(as the code computes it) is within 5 px is snapped exactly onto the
hang position with velocity exactly (0,0) and ends the frame idle
(attacking, staying and returning flags all false).  The hang position
is assumed to lie inside the level bounds, as `find_hanging_position`
produces. -/
theorem ambush_return_snap_idle
    (sqrtF : ℚ → ℚ) (tanHalf : ℚ) (solid : List Rect) (levelH levelW : ℚ)
    (playerPos : Option (ℚ × ℚ)) (a : AmbushState)
    (hact : a.active = true) (hatk : a.isAttacking = false)
    (hstay : a.isStaying = false) (hret : a.isReturning = true)
    (hclose : sqrtF ((a.hangingPosition.1 - a.rect.x) ^ 2 +
      (a.hangingPosition.2 - a.rect.y) ^ 2) ≤ 5)
    (hx0 : 0 ≤ a.hangingPosition.1)
    (hxw : a.hangingPosition.1 + a.rect.width ≤ levelW)
    (hy0 : 0 ≤ a.hangingPosition.2)
    (hyh : a.hangingPosition.2 + a.rect.height ≤ levelH) :
    (ambushUpdate sqrtF tanHalf solid levelH levelW playerPos a).rect.x =
        a.hangingPosition.1 ∧
      (ambushUpdate sqrtF tanHalf solid levelH levelW playerPos a).rect.y =
        a.hangingPosition.2 ∧
      (ambushUpdate sqrtF tanHalf solid levelH levelW playerPos a).velocityX = 0 ∧
      (ambushUpdate sqrtF tanHalf solid levelH levelW playerPos a).velocityY = 0 ∧
      (ambushUpdate sqrtF tanHalf solid levelH levelW playerPos a).isAttacking = false ∧
      (ambushUpdate sqrtF tanHalf solid levelH levelW playerPos a).isStaying = false ∧
      (ambushUpdate sqrtF tanHalf solid levelH levelW playerPos a).isReturning = false := by
  have hstep : ambushUpdate sqrtF tanHalf solid levelH levelW playerPos a =
      ambushClampBounds levelH levelW (returnStep sqrtF a) := by
    have htick : ambushCooldownTick a = a := by
      rw [ambushCooldownTick, if_neg]
      rintro ⟨h1, h2, h3, h4⟩
      rw [hret] at h4
      cases h4
    have htrig : ambushTriggerStage sqrtF tanHalf solid playerPos a = a := by
      cases playerPos with
      | none => rfl
      | some p =>
        simp only [ambushTriggerStage]
        rw [if_neg]
        rintro ⟨h1, h2, h3, h4⟩
        rw [hret] at h4
        cases h4
    have hbr : ambushBranch sqrtF a = returnStep sqrtF a := by
      rw [ambushBranch, if_neg (by simp [hatk]), ambushRest, if_neg (by simp [hstay]),
        if_pos hret]
    rw [ambushUpdate, if_neg (by simp [hact]), htick, htrig, hbr]
  have hsnap : returnStep sqrtF a =
      { a with
        rect := { a.rect with x := a.hangingPosition.1, y := a.hangingPosition.2 }
        velocityX := 0, velocityY := 0, isReturning := false } := by
    rw [returnStep]
    rw [if_neg (not_lt.mpr hclose)]
  set s : AmbushState :=
    { a with
      rect := { a.rect with x := a.hangingPosition.1, y := a.hangingPosition.2 }
      velocityX := 0, velocityY := 0, isReturning := false } with hs
  have hclamp : ambushClampBounds levelH levelW s = s := by
    rw [ambushClampBounds, if_pos ⟨hatk, rfl⟩]
    dsimp only
    have hr1 :
        (if s.rect.left ≤ 0 then s.rect.setLeft 0
         else if s.rect.right ≥ levelW then s.rect.setRight levelW
         else s.rect) = s.rect := by
      split_ifs with h1 h2
      · refine Rect.ext_xywh ?_ rfl rfl rfl
        simp only [hs, Rect.setLeft, Rect.left] at h1 ⊢
        linarith
      · refine Rect.ext_xywh ?_ rfl rfl rfl
        simp only [hs, Rect.setRight, Rect.right] at h2 ⊢
        linarith
      · rfl
    rw [hr1]
    have hr2 :
        (if s.rect.top ≤ 0 then s.rect.setTop 0
         else if s.rect.bottom ≥ levelH then s.rect.setBottom levelH
         else s.rect) = s.rect := by
      split_ifs with h1 h2
      · refine Rect.ext_xywh rfl ?_ rfl rfl
        simp only [hs, Rect.setTop, Rect.top] at h1 ⊢
        linarith
      · refine Rect.ext_xywh rfl ?_ rfl rfl
        simp only [hs, Rect.setBottom, Rect.bottom] at h2 ⊢
        linarith
      · rfl
    rw [hr2]
  rw [hstep, hsnap, hclamp]
  simp [hs, hatk, hstay]

/-- C7 witness: a concrete returning ambush enemy 2 px from its hang
position is snapped onto it, motionless and idle. -/
theorem ambush_return_snap_idle_witness :
    (ambushUpdate (fun q => q) 0 [] 640 640 none
        ⟨⟨100, 100, 32, 32⟩, 1, 1, true, false, false, true, 0, 0, none, none,
          (102, 100)⟩).rect.x = 102 ∧
    (ambushUpdate (fun q => q) 0 [] 640 640 none
        ⟨⟨100, 100, 32, 32⟩, 1, 1, true, false, false, true, 0, 0, none, none,
          (102, 100)⟩).rect.y = 100 ∧
    (ambushUpdate (fun q => q) 0 [] 640 640 none
        ⟨⟨100, 100, 32, 32⟩, 1, 1, true, false, false, true, 0, 0, none, none,
          (102, 100)⟩).velocityX = 0 ∧
    (ambushUpdate (fun q => q) 0 [] 640 640 none
        ⟨⟨100, 100, 32, 32⟩, 1, 1, true, false, false, true, 0, 0, none, none,
          (102, 100)⟩).velocityY = 0 ∧
    (ambushUpdate (fun q => q) 0 [] 640 640 none
        ⟨⟨100, 100, 32, 32⟩, 1, 1, true, false, false, true, 0, 0, none, none,
          (102, 100)⟩).isAttacking = false ∧
    (ambushUpdate (fun q => q) 0 [] 640 640 none
        ⟨⟨100, 100, 32, 32⟩, 1, 1, true, false, false, true, 0, 0, none, none,
          (102, 100)⟩).isStaying = false ∧
    (ambushUpdate (fun q => q) 0 [] 640 640 none
        ⟨⟨100, 100, 32, 32⟩, 1, 1, true, false, false, true, 0, 0, none, none,
          (102, 100)⟩).isReturning = false := by
  exact ambush_return_snap_idle (fun q => q) 0 [] 640 640 none
    ⟨⟨100, 100, 32, 32⟩, 1, 1, true, false, false, true, 0, 0, none, none, (102, 100)⟩
    rfl rfl rfl rfl (by norm_num) (by norm_num) (by norm_num) (by norm_num) (by norm_num)

/-! ## Claim C8: no division by zero in the ambush update -/

theorem dashTargetChecked_eq (sqrtF : ℚ → ℚ) (px py : ℚ) (r : Rect) :
    dashTargetChecked sqrtF px py r = some (dashTarget sqrtF px py r) := by
  rw [dashTargetChecked, dashTarget]
  dsimp only
  split_ifs with h
  · have hne : sqrtF ((px + 16 - centerx r) ^ 2 + (py + 24 - centery r) ^ 2) ≠ 0 := by
      intro h0
      rw [h0] at h
      norm_num [maxDashDistance] at h
    rw [nzDiv, if_neg hne]
    rfl
  · rfl

theorem startAttackChecked_eq (sqrtF : ℚ → ℚ) (px py : ℚ) (a : AmbushState) :
    startAttackChecked sqrtF px py a = some (startAttack sqrtF px py a) := by
  rw [startAttackChecked, startAttack, dashTargetChecked_eq]
  simp only [Option.some_bind]
  split_ifs with h
  · have hne : sqrtF (((dashTarget sqrtF px py a.rect).1 - centerx a.rect) ^ 2 +
        ((dashTarget sqrtF px py a.rect).2 - centery a.rect) ^ 2) ≠ 0 :=
      ne_of_gt h
    rw [nzDiv, if_neg hne, nzDiv, if_neg hne]
    rfl
  · rfl

theorem ambushTriggerChecked_eq (sqrtF : ℚ → ℚ) (tanHalf : ℚ) (solid : List Rect)
    (px py : ℚ) (a : AmbushState) :
    ambushTriggerChecked sqrtF tanHalf solid px py a =
      some (ambushTrigger sqrtF tanHalf solid px py a) := by
  rw [ambushTriggerChecked, ambushTrigger]
  split_ifs with h
  · exact startAttackChecked_eq sqrtF px py a
  · rfl

theorem returnStepChecked_eq (sqrtF : ℚ → ℚ) (a : AmbushState) :
    returnStepChecked sqrtF a = some (returnStep sqrtF a) := by
  rw [returnStepChecked, returnStep]
  dsimp only
  split_ifs with h
  · have hne : sqrtF ((a.hangingPosition.1 - a.rect.x) ^ 2 +
        (a.hangingPosition.2 - a.rect.y) ^ 2) ≠ 0 := by
      intro h0
      rw [h0] at h
      norm_num at h
    rw [nzDiv, if_neg hne, nzDiv, if_neg hne]
    rfl
  · rfl

theorem ambushRestChecked_eq (sqrtF : ℚ → ℚ) (a : AmbushState) :
    ambushRestChecked sqrtF a = some (ambushRest sqrtF a) := by
  rw [ambushRestChecked, ambushRest]
  split_ifs with h1 h2
  · rfl
  · exact returnStepChecked_eq sqrtF a
  · rfl

theorem ambushBranchChecked_eq (sqrtF : ℚ → ℚ) (b : AmbushState) :
    ambushBranchChecked sqrtF b = some (ambushBranch sqrtF b) := by
  rw [ambushBranchChecked, ambushBranch]
  split_ifs with h
  · rcases htp : b.targetPosition with _ | tp <;>
      rcases hsp : b.attackStartPosition with _ | sp <;>
        simp [ambushRestChecked_eq]
  · simp [ambushRestChecked_eq]

theorem ambushTriggerStageChecked_eq (sqrtF : ℚ → ℚ) (tanHalf : ℚ)
    (solid : List Rect) (playerPos : Option (ℚ × ℚ)) (b : AmbushState) :
    ambushTriggerStageChecked sqrtF tanHalf solid playerPos b =
      some (ambushTriggerStage sqrtF tanHalf solid playerPos b) := by
  cases playerPos with
  | none => rfl
  | some p =>
    simp only [ambushTriggerStageChecked, ambushTriggerStage]
    split_ifs with h
    · exact ambushTriggerChecked_eq sqrtF tanHalf solid p.1 p.2 b
    · rfl

/-- C8: for every input, the division-checked `AmbushEnemy.update`
succeeds and agrees with the plain update — every division the update
performs has a nonzero denominator (the dash-target scaling and
direction normalization are guarded by positivity tests, the return
normalization by the greater-than-5 test); moreover, when the computed
distance to the dash target is not positive, the attack initiation
leaves both velocity components unchanged instead of dividing. -/
theorem ambush_update_no_div_by_zero :
    (∀ (sqrtF : ℚ → ℚ) (tanHalf : ℚ) (solid : List Rect)
        (levelH levelW : ℚ) (playerPos : Option (ℚ × ℚ)) (a : AmbushState),
      ambushUpdateChecked sqrtF tanHalf solid levelH levelW playerPos a =
        some (ambushUpdate sqrtF tanHalf solid levelH levelW playerPos a)) ∧
    (∀ (sqrtF : ℚ → ℚ) (px py : ℚ) (a : AmbushState),
      sqrtF (((dashTarget sqrtF px py a.rect).1 - centerx a.rect) ^ 2 +
          ((dashTarget sqrtF px py a.rect).2 - centery a.rect) ^ 2) ≤ 0 →
      (startAttack sqrtF px py a).velocityX = a.velocityX ∧
        (startAttack sqrtF px py a).velocityY = a.velocityY) := by
  constructor
  · intro sqrtF tanHalf solid levelH levelW playerPos a
    rw [ambushUpdateChecked, ambushUpdate]
    split_ifs with hAct
    · rfl
    · rw [ambushTriggerStageChecked_eq, Option.some_bind, ambushBranchChecked_eq,
        Option.some_bind]
  · intro sqrtF px py a h
    rw [startAttack]
    dsimp only
    rw [if_neg (not_lt.mpr h)]
    exact ⟨rfl, rfl⟩

/-- C8 witness: a concrete run of the checked update agrees with the
plain update, and a concrete attack initiation whose dash target
coincides with the enemy center leaves the velocity untouched. -/
theorem ambush_update_no_div_by_zero_witness :
    ambushUpdateChecked (fun q => q) 0 [] 640 640 none
        ⟨⟨100, 100, 32, 32⟩, 3, 4, true, false, false, false, 0, 0, none, none,
          (100, 100)⟩ =
      some (ambushUpdate (fun q => q) 0 [] 640 640 none
        ⟨⟨100, 100, 32, 32⟩, 3, 4, true, false, false, false, 0, 0, none, none,
          (100, 100)⟩) ∧
    (startAttack (fun q => q) 100 92
        ⟨⟨100, 100, 32, 32⟩, 3, 4, true, false, false, false, 0, 0, none, none,
          (100, 100)⟩).velocityX = 3 ∧
    (startAttack (fun q => q) 100 92
        ⟨⟨100, 100, 32, 32⟩, 3, 4, true, false, false, false, 0, 0, none, none,
          (100, 100)⟩).velocityY = 4 := by
  refine ⟨ambush_update_no_div_by_zero.1 (fun q => q) 0 [] 640 640 none _, ?_⟩
  have h := ambush_update_no_div_by_zero.2 (fun q => q) 100 92
    ⟨⟨100, 100, 32, 32⟩, 3, 4, true, false, false, false, 0, 0, none, none, (100, 100)⟩
    (by norm_num [dashTarget, centerx, centery, maxDashDistance])
  exact ⟨h.1, h.2⟩

/-! ## Shared facts about the vertical passes -/

theorem Rect.bottom_setBottom (r : Rect) (v : ℚ) : (r.setBottom v).bottom = v := by
  simp [Rect.setBottom, Rect.bottom]

theorem vSolidStep_vy_zero (s : VState) (t : Rect) (h : s.velocityY = 0) :
    vSolidStep s t = s := by
  rw [vSolidStep, h]
  split_ifs with h1 h2 h3 <;> simp_all

theorem vOneWayStepPlayer_vy_zero (prevBottom : ℚ) (s : VState) (t : Rect)
    (h : s.velocityY = 0) : vOneWayStepPlayer prevBottom s t = s := by
  rw [vOneWayStepPlayer, h]
  split_ifs with h1 h2 <;> simp_all

theorem vOneWayStepEnemy_vy_zero (s : VState) (t : Rect) (h : s.velocityY = 0) :
    vOneWayStepEnemy s t = s := by
  rw [vOneWayStepEnemy, h]
  split_ifs with h1 h2 <;> simp_all

theorem foldl_vSolidStep_vy_zero :
    ∀ (l : List Rect) (s : VState), s.velocityY = 0 → l.foldl vSolidStep s = s := by
  intro l
  induction l with
  | nil => intro s h; rfl
  | cons t rest ih =>
    intro s h
    rw [List.foldl_cons, vSolidStep_vy_zero s t h, ih s h]

theorem foldl_vOneWayStepPlayer_vy_zero (prevBottom : ℚ) :
    ∀ (l : List Rect) (s : VState), s.velocityY = 0 →
      l.foldl (vOneWayStepPlayer prevBottom) s = s := by
  intro l
  induction l with
  | nil => intro s h; rfl
  | cons t rest ih =>
    intro s h
    rw [List.foldl_cons, vOneWayStepPlayer_vy_zero prevBottom s t h, ih s h]

theorem foldl_vOneWayStepEnemy_vy_zero :
    ∀ (l : List Rect) (s : VState), s.velocityY = 0 →
      l.foldl vOneWayStepEnemy s = s := by
  intro l
  induction l with
  | nil => intro s h; rfl
  | cons t rest ih =>
    intro s h
    rw [List.foldl_cons, vOneWayStepEnemy_vy_zero s t h, ih s h]

/-! ## Claim C4: anti-flicker grounded rule -/

/-- C4 counterexample: an enemy standing exactly on a solid tile,
grounded with zero vertical velocity, comes out of `Enemy.update` with
`on_ground = false` — the enemy pass has no one-pixel re-probe, so the
grounded flag flickers, refuting the claim for the enemy chassis. -/
theorem enemy_grounded_flicker_counterexample :
    (⟨⟨10, 100, 32, 32⟩, 1, 1, 0, 0, 0.8, 10, true, true⟩ : EnemyState).onGround = true ∧
    (⟨⟨10, 100, 32, 32⟩, 1, 1, 0, 0, 0.8, 10, true, true⟩ : EnemyState).velocityY = 0 ∧
    (⟨⟨10, 100, 32, 32⟩, 1, 1, 0, 0, 0.8, 10, true, true⟩ : EnemyState).rect.bottom =
      (⟨0, 132, 640, 64⟩ : Rect).top ∧
    (enemyUpdate [⟨0, 132, 640, 64⟩] [] 640 640
      ⟨⟨10, 100, 32, 32⟩, 1, 1, 0, 0, 0.8, 10, true, true⟩).onGround = false := by
  refine ⟨rfl, rfl, by norm_num [Rect.bottom, Rect.top], ?_⟩
  norm_num [enemyUpdate, enemyApplyGravity, enemyHorizontalStage, enemyCheckHorizontal, hStepEnemy,
    enemyCheckVertical, vSolidStep, vOneWayStepEnemy, clampLevelBottom, collide,
    Rect.left, Rect.right, Rect.top, Rect.bottom, Rect.setLeft, Rect.setRight,
    Rect.setTop, Rect.setBottom]

/-- C4 (amended): the anti-flicker rule holds for the Player only —
when the vertical velocity is zero, the previous frame was grounded and
the one-pixel probe below the body finds a solid or one-way tile, the
player pass reports the body grounded.  The enemy pass has no such
probe (see the flicker counterexample). -/
theorem player_antiflicker_keeps_grounded
    (solid oneWay : List Rect) (prevBottom levelHeight : ℚ) (r : Rect)
    (hprobe : probeBelow solid oneWay r = true) :
    (playerCheckVertical solid oneWay prevBottom levelHeight true r 0).onGround = true := by
  simp only [playerCheckVertical]
  rw [foldl_vSolidStep_vy_zero solid ⟨r, 0, false⟩ rfl,
    foldl_vOneWayStepPlayer_vy_zero prevBottom oneWay ⟨r, 0, false⟩ rfl,
    clampLevelBottom]
  split_ifs with h1 h2 h3 h4 h5 <;> simp_all

/-- C4 witness: a concrete player body resting exactly on a solid tile
with zero velocity stays grounded through the pass. -/
theorem player_antiflicker_keeps_grounded_witness :
    probeBelow [⟨0, 132, 640, 64⟩] [] ⟨10, 100, 32, 32⟩ = true ∧
    (playerCheckVertical [⟨0, 132, 640, 64⟩] [] 132 640 true
      ⟨10, 100, 32, 32⟩ 0).onGround = true := by
  have hp : probeBelow [⟨0, 132, 640, 64⟩] [] ⟨10, 100, 32, 32⟩ = true := by
    norm_num [probeBelow, collide, Rect.left, Rect.right, Rect.top, Rect.bottom]
  exact ⟨hp, player_antiflicker_keeps_grounded [⟨0, 132, 640, 64⟩] [] 132 640
    ⟨10, 100, 32, 32⟩ hp⟩

/-! ## Claim C2: one-way platform rule -/

/-- C2 counterexample: an enemy whose previous-frame bottom (122) is
already below the platform top (100) — approaching from the side, not
from above — is nevertheless stopped by the one-way tile during
`Enemy.update`: bottom snapped to the tile top, vertical velocity
zeroed, grounded set.  The enemy pass has no previous-bottom test. -/
theorem enemy_oneway_side_stop_counterexample :
    (⟨⟨0, 90, 32, 32⟩, 1, 1, 0, 2, 0.8, 10, false, true⟩ : EnemyState).rect.bottom = 122 ∧
    (⟨0, 100, 64, 8⟩ : Rect).top = 100 ∧
    ¬((⟨⟨0, 90, 32, 32⟩, 1, 1, 0, 2, 0.8, 10, false, true⟩ : EnemyState).rect.bottom ≤
      (⟨0, 100, 64, 8⟩ : Rect).top) ∧
    (enemyUpdate [] [⟨0, 100, 64, 8⟩] 640 640
      ⟨⟨0, 90, 32, 32⟩, 1, 1, 0, 2, 0.8, 10, false, true⟩).rect.bottom = 100 ∧
    (enemyUpdate [] [⟨0, 100, 64, 8⟩] 640 640
      ⟨⟨0, 90, 32, 32⟩, 1, 1, 0, 2, 0.8, 10, false, true⟩).velocityY = 0 ∧
    (enemyUpdate [] [⟨0, 100, 64, 8⟩] 640 640
      ⟨⟨0, 90, 32, 32⟩, 1, 1, 0, 2, 0.8, 10, false, true⟩).onGround = true := by
  refine ⟨by norm_num [Rect.bottom], rfl, by norm_num [Rect.bottom, Rect.top], ?_, ?_, ?_⟩ <;>
    norm_num [enemyUpdate, enemyApplyGravity, enemyHorizontalStage, enemyCheckHorizontal, hStepEnemy,
      enemyCheckVertical, vSolidStep, vOneWayStepEnemy, clampLevelBottom, collide,
      Rect.left, Rect.right, Rect.top, Rect.bottom, Rect.setLeft, Rect.setRight,
      Rect.setTop, Rect.setBottom]

/-- C2 (amended): the stated one-way rule holds for the Player pass —
stopped (bottom snapped to the tile top, vertical velocity zeroed,
grounded) exactly when moving downward with the previous-frame bottom
at or above the tile top, and otherwise the tile never moves the body —
while the enemy passes stop a falling body on any overlap with the
one-way tile, with no previous-bottom test. -/
theorem oneway_stop_characterization :
    (∀ (t : Rect) (prevBottom levelHeight : ℚ) (wasGrounded : Bool) (r : Rect) (vy : ℚ),
      collide r t = true → 0 < vy → prevBottom ≤ t.top → t.top < levelHeight →
      (playerCheckVertical [] [t] prevBottom levelHeight wasGrounded r vy).rect.bottom =
          t.top ∧
        (playerCheckVertical [] [t] prevBottom levelHeight wasGrounded r vy).velocityY = 0 ∧
        (playerCheckVertical [] [t] prevBottom levelHeight wasGrounded r vy).onGround =
          true) ∧
    (∀ (t : Rect) (prevBottom levelHeight : ℚ) (wasGrounded : Bool) (r : Rect) (vy : ℚ),
      (¬(0 < vy ∧ prevBottom ≤ t.top) ∨ collide r t = false) → r.bottom < levelHeight →
      (playerCheckVertical [] [t] prevBottom levelHeight wasGrounded r vy).rect = r ∧
        (playerCheckVertical [] [t] prevBottom levelHeight wasGrounded r vy).velocityY =
          vy) ∧
    (∀ (t : Rect) (levelHeight : ℚ) (r : Rect) (vy : ℚ),
      collide r t = true → 0 < vy → t.top < levelHeight →
      (enemyCheckVertical [] [t] levelHeight r vy).rect.bottom = t.top ∧
        (enemyCheckVertical [] [t] levelHeight r vy).velocityY = 0 ∧
        (enemyCheckVertical [] [t] levelHeight r vy).onGround = true) ∧
    (∀ (t : Rect) (levelHeight : ℚ) (r : Rect) (vy : ℚ),
      (¬(0 < vy) ∨ collide r t = false) → r.bottom < levelHeight →
      (enemyCheckVertical [] [t] levelHeight r vy).rect = r ∧
        (enemyCheckVertical [] [t] levelHeight r vy).velocityY = vy) := by
  refine ⟨?_, ?_, ?_, ?_⟩
  · intro t prevBottom levelHeight wasGrounded r vy hcol hvy hprev ht
    simp only [playerCheckVertical, List.foldl_nil, List.foldl_cons]
    have hstep : vOneWayStepPlayer prevBottom ⟨r, vy, false⟩ t =
        ⟨r.setBottom t.top, 0, true⟩ := by
      rw [vOneWayStepPlayer]
      dsimp only
      rw [if_pos hcol, if_pos (show vy > 0 ∧ prevBottom ≤ t.top from ⟨hvy, hprev⟩)]
    rw [hstep, clampLevelBottom]
    dsimp only
    rw [Rect.bottom_setBottom, if_neg (not_le.mpr ht)]
    simp [Rect.bottom_setBottom]
  · intro t prevBottom levelHeight wasGrounded r vy hno hb
    simp only [playerCheckVertical, List.foldl_nil, List.foldl_cons]
    have hstep : vOneWayStepPlayer prevBottom ⟨r, vy, false⟩ t = ⟨r, vy, false⟩ := by
      rcases hno with hno | hno
      · simp [vOneWayStepPlayer, hno]
      · simp [vOneWayStepPlayer, hno]
    rw [hstep, clampLevelBottom]
    dsimp only
    rw [if_neg (not_le.mpr hb)]
    split_ifs <;> simp
  · intro t levelHeight r vy hcol hvy ht
    simp only [enemyCheckVertical, List.foldl_nil, List.foldl_cons]
    have hstep : vOneWayStepEnemy ⟨r, vy, false⟩ t = ⟨r.setBottom t.top, 0, true⟩ := by
      rw [vOneWayStepEnemy]
      dsimp only
      rw [if_pos hcol, if_pos (show vy > 0 from hvy)]
    rw [hstep, clampLevelBottom]
    dsimp only
    rw [Rect.bottom_setBottom, if_neg (not_le.mpr ht)]
    simp [Rect.bottom_setBottom]
  · intro t levelHeight r vy hno hb
    simp only [enemyCheckVertical, List.foldl_nil, List.foldl_cons]
    have hstep : vOneWayStepEnemy ⟨r, vy, false⟩ t = ⟨r, vy, false⟩ := by
      rcases hno with hno | hno
      · simp [vOneWayStepEnemy, hno]
      · simp [vOneWayStepEnemy, hno]
    rw [hstep, clampLevelBottom]
    dsimp only
    rw [if_neg (not_le.mpr hb)]
    exact ⟨rfl, rfl⟩

/-- C2 witness: concrete instances of all four parts — a falling player
crossing a platform from above is stopped on it; a rising player passes
through the same platform; a falling enemy overlapping the platform is
stopped; a rising enemy passes through. -/
theorem oneway_stop_characterization_witness :
    ((playerCheckVertical [] [⟨0, 100, 64, 8⟩] 98 640 false ⟨0, 70, 32, 32⟩ 4).rect.bottom =
        100 ∧
      (playerCheckVertical [] [⟨0, 100, 64, 8⟩] 98 640 false
        ⟨0, 70, 32, 32⟩ 4).velocityY = 0 ∧
      (playerCheckVertical [] [⟨0, 100, 64, 8⟩] 98 640 false
        ⟨0, 70, 32, 32⟩ 4).onGround = true) ∧
    ((playerCheckVertical [] [⟨0, 100, 64, 8⟩] 130 640 false ⟨0, 80, 32, 32⟩ (-4)).rect =
        ⟨0, 80, 32, 32⟩ ∧
      (playerCheckVertical [] [⟨0, 100, 64, 8⟩] 130 640 false
        ⟨0, 80, 32, 32⟩ (-4)).velocityY = -4) ∧
    ((enemyCheckVertical [] [⟨0, 100, 64, 8⟩] 640 ⟨0, 70, 32, 32⟩ 4).rect.bottom = 100 ∧
      (enemyCheckVertical [] [⟨0, 100, 64, 8⟩] 640 ⟨0, 70, 32, 32⟩ 4).velocityY = 0 ∧
      (enemyCheckVertical [] [⟨0, 100, 64, 8⟩] 640 ⟨0, 70, 32, 32⟩ 4).onGround = true) ∧
    ((enemyCheckVertical [] [⟨0, 100, 64, 8⟩] 640 ⟨0, 80, 32, 32⟩ (-4)).rect =
        ⟨0, 80, 32, 32⟩ ∧
      (enemyCheckVertical [] [⟨0, 100, 64, 8⟩] 640 ⟨0, 80, 32, 32⟩ (-4)).velocityY = -4) := by
  refine ⟨?_, ?_, ?_, ?_⟩
  · exact oneway_stop_characterization.1 ⟨0, 100, 64, 8⟩ 98 640 false ⟨0, 70, 32, 32⟩ 4
      (by norm_num [collide, Rect.left, Rect.right, Rect.top, Rect.bottom])
      (by norm_num) (by norm_num [Rect.top]) (by norm_num [Rect.top])
  · exact oneway_stop_characterization.2.1 ⟨0, 100, 64, 8⟩ 130 640 false
      ⟨0, 80, 32, 32⟩ (-4)
      (Or.inl (by norm_num)) (by norm_num [Rect.bottom])
  · exact oneway_stop_characterization.2.2.1 ⟨0, 100, 64, 8⟩ 640 ⟨0, 70, 32, 32⟩ 4
      (by norm_num [collide, Rect.left, Rect.right, Rect.top, Rect.bottom])
      (by norm_num) (by norm_num [Rect.top])
  · exact oneway_stop_characterization.2.2.2 ⟨0, 100, 64, 8⟩ 640 ⟨0, 80, 32, 32⟩ (-4)
      (Or.inl (by norm_num)) (by norm_num [Rect.bottom])

/-! ## Claim C1: no solid overlap after update

The horizontal pass lemmas: starting from a position that overlaps no
solid tile, the fold of `hStepEnemy` over any tile list ends clean, as
long as the per-frame displacement does not exceed the body width (the
game's enemy speeds are at most 1.2 px/frame against 32 px bodies). -/

theorem hfold_pos (vx : ℚ) (r0 : Rect) (hvx : 0 < vx) (hw : vx ≤ r0.width) :
    ∀ (l : List Rect) (p : Rect × ℚ),
      (∀ t ∈ l, collide r0 t = false) →
      (∀ t ∈ l, 0 < t.width) →
      p.1.y = r0.y → p.1.width = r0.width → p.1.height = r0.height →
      r0.x ≤ p.1.x → p.1.x ≤ r0.x + vx →
      (l.foldl (hStepEnemy vx) p).1.y = r0.y ∧
      (l.foldl (hStepEnemy vx) p).1.width = r0.width ∧
      (l.foldl (hStepEnemy vx) p).1.height = r0.height ∧
      r0.x ≤ (l.foldl (hStepEnemy vx) p).1.x ∧
      (l.foldl (hStepEnemy vx) p).1.x ≤ p.1.x ∧
      ∀ t ∈ l, collide (l.foldl (hStepEnemy vx) p).1 t = false := by
  intro l
  induction l with
  | nil =>
    intro p _ _ hy hwp hh hlo hhi
    exact ⟨hy, hwp, hh, hlo, le_refl _, by simp⟩
  | cons t rest ih =>
    intro p hclean hwid hy hwp hh hlo hhi
    have hclean_rest : ∀ u ∈ rest, collide r0 u = false :=
      fun u hu => hclean u (List.mem_cons_of_mem t hu)
    have hwid_rest : ∀ u ∈ rest, 0 < u.width :=
      fun u hu => hwid u (List.mem_cons_of_mem t hu)
    have hclean_t : ¬(r0.x < t.x + t.width ∧ t.x < r0.x + r0.width ∧
        r0.y < t.y + t.height ∧ t.y < r0.y + r0.height) :=
      (collide_eq_false_iff r0 t).mp (hclean t (List.mem_cons_self t rest))
    have hwt : 0 < t.width := hwid t (List.mem_cons_self t rest)
    rw [List.foldl_cons]
    by_cases hcol : collide p.1 t = true
    · have hc := (collide_eq_true_iff p.1 t).mp hcol
      have htx : r0.x + r0.width ≤ t.x := by
        by_contra hlt
        push_neg at hlt
        exact hclean_t ⟨by linarith [hc.1], hlt, by linarith [hc.2.2.1],
          by linarith [hc.2.2.2]⟩
      have hstep : hStepEnemy vx p t = (p.1.setRight t.left, -p.2) := by
        rw [hStepEnemy, if_pos hcol, if_pos hvx]
      rw [hstep]
      have hx1 : (p.1.setRight t.left).x = t.x - p.1.width := by
        simp [Rect.setRight, Rect.left]
      have ihres := ih (p.1.setRight t.left, -p.2) hclean_rest hwid_rest
        (by simp [Rect.setRight, hy]) (by simp [Rect.setRight, hwp])
        (by simp [Rect.setRight, hh])
        (by rw [hx1]; linarith) (by rw [hx1]; linarith [hc.2.1])
      refine ⟨ihres.1, ihres.2.1, ihres.2.2.1, ihres.2.2.2.1, ?_, ?_⟩
      · calc (rest.foldl (hStepEnemy vx) (p.1.setRight t.left, -p.2)).1.x
            ≤ (p.1.setRight t.left).x := ihres.2.2.2.2.1
          _ ≤ p.1.x := by rw [hx1]; linarith [hc.2.1]
      · intro u hu
        rcases List.mem_cons.mp hu with rfl | hu2
        · rw [collide_eq_false_iff]
          rintro ⟨c1, c2, c3, c4⟩
          have hfx : (rest.foldl (hStepEnemy vx) (p.1.setRight u.left, -p.2)).1.x ≤
              u.x - p.1.width := by
            rw [← hx1]; exact ihres.2.2.2.2.1
          have hfw : (rest.foldl (hStepEnemy vx) (p.1.setRight u.left, -p.2)).1.width =
              r0.width := ihres.2.1
          linarith [hwp]
        · exact ihres.2.2.2.2.2 u hu2
    · have hcolf : collide p.1 t = false := Bool.eq_false_iff.mpr hcol
      have hnc := (collide_eq_false_iff p.1 t).mp hcolf
      have hstep : hStepEnemy vx p t = p := by
        rw [hStepEnemy, if_neg hcol]
      rw [hstep]
      have ihres := ih p hclean_rest hwid_rest hy hwp hh hlo hhi
      refine ⟨ihres.1, ihres.2.1, ihres.2.2.1, ihres.2.2.2.1, ihres.2.2.2.2.1, ?_⟩
      intro u hu
      rcases List.mem_cons.mp hu with rfl | hu2
      · rw [collide_eq_false_iff]
        rintro ⟨c1, c2, c3, c4⟩
        have hFy : (rest.foldl (hStepEnemy vx) p).1.y = r0.y := ihres.1
        have hFw : (rest.foldl (hStepEnemy vx) p).1.width = r0.width := ihres.2.1
        have hFh : (rest.foldl (hStepEnemy vx) p).1.height = r0.height := ihres.2.2.1
        have hFlo : r0.x ≤ (rest.foldl (hStepEnemy vx) p).1.x := ihres.2.2.2.1
        have hFhi : (rest.foldl (hStepEnemy vx) p).1.x ≤ p.1.x := ihres.2.2.2.2.1
        have hxdisj : u.x + u.width ≤ p.1.x ∨ p.1.x + p.1.width ≤ u.x := by
          by_contra hcontra
          push_neg at hcontra
          exact hnc ⟨by linarith [hcontra.1], by linarith [hcontra.2],
            by linarith, by linarith⟩
        have hxdisj0 : u.x + u.width ≤ r0.x ∨ r0.x + r0.width ≤ u.x := by
          by_contra hcontra
          push_neg at hcontra
          exact hclean_t ⟨by linarith [hcontra.1], by linarith [hcontra.2],
            by linarith, by linarith⟩
        rcases hxdisj with hA | hB
        · rcases hxdisj0 with hA0 | hB0
          · linarith
          · linarith
        · linarith
      · exact ihres.2.2.2.2.2 u hu2

theorem hfold_neg (vx : ℚ) (r0 : Rect) (hvx : vx < 0) (hw : -r0.width ≤ vx) :
    ∀ (l : List Rect) (p : Rect × ℚ),
      (∀ t ∈ l, collide r0 t = false) →
      (∀ t ∈ l, 0 < t.width) →
      p.1.y = r0.y → p.1.width = r0.width → p.1.height = r0.height →
      r0.x + vx ≤ p.1.x → p.1.x ≤ r0.x →
      (l.foldl (hStepEnemy vx) p).1.y = r0.y ∧
      (l.foldl (hStepEnemy vx) p).1.width = r0.width ∧
      (l.foldl (hStepEnemy vx) p).1.height = r0.height ∧
      p.1.x ≤ (l.foldl (hStepEnemy vx) p).1.x ∧
      (l.foldl (hStepEnemy vx) p).1.x ≤ r0.x ∧
      ∀ t ∈ l, collide (l.foldl (hStepEnemy vx) p).1 t = false := by
  intro l
  induction l with
  | nil =>
    intro p _ _ hy hwp hh hlo hhi
    exact ⟨hy, hwp, hh, le_refl _, hhi, by simp⟩
  | cons t rest ih =>
    intro p hclean hwid hy hwp hh hlo hhi
    have hclean_rest : ∀ u ∈ rest, collide r0 u = false :=
      fun u hu => hclean u (List.mem_cons_of_mem t hu)
    have hwid_rest : ∀ u ∈ rest, 0 < u.width :=
      fun u hu => hwid u (List.mem_cons_of_mem t hu)
    have hclean_t : ¬(r0.x < t.x + t.width ∧ t.x < r0.x + r0.width ∧
        r0.y < t.y + t.height ∧ t.y < r0.y + r0.height) :=
      (collide_eq_false_iff r0 t).mp (hclean t (List.mem_cons_self t rest))
    have hwt : 0 < t.width := hwid t (List.mem_cons_self t rest)
    rw [List.foldl_cons]
    by_cases hcol : collide p.1 t = true
    · have hc := (collide_eq_true_iff p.1 t).mp hcol
      have htx : t.x + t.width ≤ r0.x := by
        by_contra hlt
        push_neg at hlt
        exact hclean_t ⟨hlt, by linarith [hc.2.1], by linarith [hc.2.2.1],
          by linarith [hc.2.2.2]⟩
      have hstep : hStepEnemy vx p t = (p.1.setLeft t.right, -p.2) := by
        rw [hStepEnemy, if_pos hcol, if_neg (by linarith : ¬vx > 0), if_pos hvx]
      rw [hstep]
      have hx1 : (p.1.setLeft t.right).x = t.x + t.width := by
        simp [Rect.setLeft, Rect.right]
      have ihres := ih (p.1.setLeft t.right, -p.2) hclean_rest hwid_rest
        (by simp [Rect.setLeft, hy]) (by simp [Rect.setLeft, hwp])
        (by simp [Rect.setLeft, hh])
        (by rw [hx1]; linarith [hc.1]) (by rw [hx1]; linarith)
      refine ⟨ihres.1, ihres.2.1, ihres.2.2.1, ?_, ihres.2.2.2.2.1, ?_⟩
      · calc p.1.x ≤ (p.1.setLeft t.right).x := by rw [hx1]; linarith [hc.1]
          _ ≤ (rest.foldl (hStepEnemy vx) (p.1.setLeft t.right, -p.2)).1.x :=
            ihres.2.2.2.1
      · intro u hu
        rcases List.mem_cons.mp hu with rfl | hu2
        · rw [collide_eq_false_iff]
          rintro ⟨c1, c2, c3, c4⟩
          have hfx : u.x + u.width ≤
              (rest.foldl (hStepEnemy vx) (p.1.setLeft u.right, -p.2)).1.x := by
            rw [← hx1]; exact ihres.2.2.2.1
          linarith
        · exact ihres.2.2.2.2.2 u hu2
    · have hcolf : collide p.1 t = false := Bool.eq_false_iff.mpr hcol
      have hnc := (collide_eq_false_iff p.1 t).mp hcolf
      have hstep : hStepEnemy vx p t = p := by
        rw [hStepEnemy, if_neg hcol]
      rw [hstep]
      have ihres := ih p hclean_rest hwid_rest hy hwp hh hlo hhi
      refine ⟨ihres.1, ihres.2.1, ihres.2.2.1, ihres.2.2.2.1, ihres.2.2.2.2.1, ?_⟩
      intro u hu
      rcases List.mem_cons.mp hu with rfl | hu2
      · rw [collide_eq_false_iff]
        rintro ⟨c1, c2, c3, c4⟩
        have hFy : (rest.foldl (hStepEnemy vx) p).1.y = r0.y := ihres.1
        have hFw : (rest.foldl (hStepEnemy vx) p).1.width = r0.width := ihres.2.1
        have hFh : (rest.foldl (hStepEnemy vx) p).1.height = r0.height := ihres.2.2.1
        have hFlo : p.1.x ≤ (rest.foldl (hStepEnemy vx) p).1.x := ihres.2.2.2.1
        have hFhi : (rest.foldl (hStepEnemy vx) p).1.x ≤ r0.x := ihres.2.2.2.2.1
        have hxdisj : u.x + u.width ≤ p.1.x ∨ p.1.x + p.1.width ≤ u.x := by
          by_contra hcontra
          push_neg at hcontra
          exact hnc ⟨by linarith [hcontra.1], by linarith [hcontra.2],
            by linarith, by linarith⟩
        have hxdisj0 : u.x + u.width ≤ r0.x ∨ r0.x + r0.width ≤ u.x := by
          by_contra hcontra
          push_neg at hcontra
          exact hclean_t ⟨by linarith [hcontra.1], by linarith [hcontra.2],
            by linarith, by linarith⟩
        rcases hxdisj with hA | hB
        · linarith
        · rcases hxdisj0 with hA0 | hB0
          · linarith
          · linarith
      · exact ihres.2.2.2.2.2 u hu2

theorem hfold_zero_rect :
    ∀ (l : List Rect) (p : Rect × ℚ), (l.foldl (hStepEnemy 0) p).1 = p.1 := by
  intro l
  induction l with
  | nil => intro p; rfl
  | cons t rest ih =>
    intro p
    rw [List.foldl_cons]
    have hstep : (hStepEnemy 0 p t).1 = p.1 := by
      rw [hStepEnemy]
      split_ifs with h1 h2 h3 <;> simp_all
    calc (rest.foldl (hStepEnemy 0) (hStepEnemy 0 p t)).1 = (hStepEnemy 0 p t).1 := ih _
      _ = p.1 := hstep

theorem enemyHorizontalStage_clean (solid : List Rect) (levelWidth : ℚ)
    (e : EnemyState)
    (hx0 : 0 ≤ e.rect.x) (hxw : e.rect.x + e.rect.width ≤ levelWidth)
    (hv : |e.velocityX| ≤ e.rect.width)
    (hwid : ∀ t ∈ solid, 0 < t.width)
    (hclean : ∀ t ∈ solid, collide e.rect t = false) :
    (enemyHorizontalStage solid levelWidth e).1.y = e.rect.y ∧
    (enemyHorizontalStage solid levelWidth e).1.width = e.rect.width ∧
    (enemyHorizontalStage solid levelWidth e).1.height = e.rect.height ∧
    ∀ t ∈ solid, collide (enemyHorizontalStage solid levelWidth e).1 t = false := by
  rcases abs_le.mp hv with ⟨hvlo, hvhi⟩
  rw [enemyHorizontalStage]
  dsimp only
  rw [enemyCheckHorizontal]
  rcases lt_trichotomy e.velocityX 0 with hneg | hzero | hpos
  · split_ifs with h1 h2
    · simp only [Rect.left] at h1
      have hres := hfold_neg e.velocityX e.rect hneg (by linarith) solid
        (({ e.rect with x := e.rect.x + e.velocityX }).setLeft 0, -e.direction)
        hclean hwid (by simp [Rect.setLeft]) (by simp [Rect.setLeft])
        (by simp [Rect.setLeft])
        (by simp [Rect.setLeft]; linarith) (by simp [Rect.setLeft]; linarith)
      exact ⟨hres.1, hres.2.1, hres.2.2.1, hres.2.2.2.2.2⟩
    · exfalso
      simp only [Rect.left, Rect.right] at h1 h2
      linarith
    · have hres := hfold_neg e.velocityX e.rect hneg (by linarith) solid
        ({ e.rect with x := e.rect.x + e.velocityX }, e.direction)
        hclean hwid (by simp) (by simp) (by simp)
        (by simp) (by simp; linarith)
      exact ⟨hres.1, hres.2.1, hres.2.2.1, hres.2.2.2.2.2⟩
  · rw [hzero]
    split_ifs with h1 h2
    · have hbd : ({ e.rect with x := e.rect.x + 0 }).setLeft 0 = e.rect := by
        refine Rect.ext_xywh ?_ rfl rfl rfl
        simp only [Rect.left] at h1
        simp [Rect.setLeft]
        linarith
      rw [hbd]
      rw [hfold_zero_rect solid (e.rect, -e.direction)]
      exact ⟨rfl, rfl, rfl, hclean⟩
    · have hbd : ({ e.rect with x := e.rect.x + 0 }).setRight levelWidth = e.rect := by
        refine Rect.ext_xywh ?_ rfl rfl rfl
        simp only [Rect.right] at h2
        simp [Rect.setRight]
        linarith
      rw [hbd]
      rw [hfold_zero_rect solid (e.rect, -e.direction)]
      exact ⟨rfl, rfl, rfl, hclean⟩
    · have hbd : ({ e.rect with x := e.rect.x + 0 } : Rect) = e.rect := by
        refine Rect.ext_xywh ?_ rfl rfl rfl
        simp
      rw [hbd]
      rw [hfold_zero_rect solid (e.rect, e.direction)]
      exact ⟨rfl, rfl, rfl, hclean⟩
  · split_ifs with h1 h2
    · exfalso
      simp only [Rect.left] at h1
      linarith
    · simp only [Rect.right] at h2
      have hres := hfold_pos e.velocityX e.rect hpos (by linarith) solid
        (({ e.rect with x := e.rect.x + e.velocityX }).setRight levelWidth, -e.direction)
        hclean hwid (by simp [Rect.setRight]) (by simp [Rect.setRight])
        (by simp [Rect.setRight])
        (by simp [Rect.setRight]; linarith) (by simp [Rect.setRight]; linarith)
      exact ⟨hres.1, hres.2.1, hres.2.2.1, hres.2.2.2.2.2⟩
    · have hres := hfold_pos e.velocityX e.rect hpos (by linarith) solid
        ({ e.rect with x := e.rect.x + e.velocityX }, e.direction)
        hclean hwid (by simp) (by simp) (by simp)
        (by simp; linarith) (by simp)
      exact ⟨hres.1, hres.2.1, hres.2.2.1, hres.2.2.2.2.2⟩

theorem enemyCheckVertical_rect_vy_zero (solid oneWay : List Rect)
    (levelHeight : ℚ) (r : Rect) (hb : r.bottom ≤ levelHeight) :
    (enemyCheckVertical solid oneWay levelHeight r 0).rect = r := by
  rw [enemyCheckVertical, foldl_vSolidStep_vy_zero solid ⟨r, 0, false⟩ rfl,
    foldl_vOneWayStepEnemy_vy_zero oneWay ⟨r, 0, false⟩ rfl, clampLevelBottom]
  split_ifs with h
  · dsimp only
    refine Rect.ext_xywh rfl ?_ rfl rfl
    simp only [Rect.bottom] at h hb
    simp [Rect.setBottom]
    linarith
  · rfl

/-- C1 counterexample: an enemy that starts the frame overlapping no
solid tile ends `Enemy.update` overlapping one.  Falling while already
overlapping a one-way platform (top 100, prior bottom 122), the
one-way snap lifts its bottom to 100, pushing its head into the solid
tile at y ∈ [61, 69): the end-of-frame no-overlap invariant fails. -/
theorem update_solid_overlap_counterexample :
    collide (⟨⟨0, 90, 32, 32⟩, 1, 1, 0, 2, 0.8, 10, false, true⟩ : EnemyState).rect
        ⟨0, 61, 64, 8⟩ = false ∧
    collide (enemyUpdate [⟨0, 61, 64, 8⟩] [⟨0, 100, 64, 8⟩] 640 640
        ⟨⟨0, 90, 32, 32⟩, 1, 1, 0, 2, 0.8, 10, false, true⟩).rect
      ⟨0, 61, 64, 8⟩ = true := by
  constructor <;>
    norm_num [enemyUpdate, enemyApplyGravity, enemyHorizontalStage,
      enemyCheckHorizontal, hStepEnemy, enemyCheckVertical, vSolidStep,
      vOneWayStepEnemy, clampLevelBottom, collide, Rect.left, Rect.right,
      Rect.top, Rect.bottom, Rect.setLeft, Rect.setRight, Rect.setTop,
      Rect.setBottom]

/-- C1 (amended): the at-rest part of the invariant holds for the
shared enemy chassis (`Enemy.update`, also the algorithm of
`BossEnemy.normal_movement`): an active enemy that starts the frame
overlapping no solid tile, grounded with zero vertical velocity, lying
within the horizontal level bounds and above the level bottom, whose
per-frame patrol displacement does not exceed its body width, and with
solid tiles of positive width, ends the update overlapping no solid
tile.  The unrestricted claim is refuted by the one-way snap
counterexample. -/
theorem enemy_update_no_solid_overlap_at_rest
    (solid oneWay : List Rect) (levelHeight levelWidth : ℚ) (e : EnemyState)
    (hact : e.active = true) (hg : e.onGround = true) (hvy : e.velocityY = 0)
    (hx0 : 0 ≤ e.rect.x) (hxw : e.rect.x + e.rect.width ≤ levelWidth)
    (hyb : e.rect.y + e.rect.height ≤ levelHeight)
    (hv : |e.direction * e.speed| ≤ e.rect.width)
    (hwid : ∀ t ∈ solid, 0 < t.width)
    (hclean : ∀ t ∈ solid, collide e.rect t = false) :
    ∀ t ∈ solid,
      collide (enemyUpdate solid oneWay levelHeight levelWidth e).rect t = false := by
  intro t ht
  have he1 : enemyApplyGravity { e with velocityX := e.direction * e.speed } =
      { e with velocityX := e.direction * e.speed } := by
    rw [enemyApplyGravity, if_pos hg]
  have hhoriz := enemyHorizontalStage_clean solid levelWidth
    { e with velocityX := e.direction * e.speed } hx0 hxw hv hwid hclean
  set F : Rect :=
    (enemyHorizontalStage solid levelWidth { e with velocityX := e.direction * e.speed }).1
    with hF
  have hyeq : ({ F with y := F.y + e.velocityY } : Rect) = F := by
    refine Rect.ext_xywh rfl ?_ rfl rfl
    rw [hvy]
    simp
  have hFb : F.bottom ≤ levelHeight := by
    rw [Rect.bottom]
    rw [hhoriz.1, hhoriz.2.2.1]
    exact hyb
  rw [enemyUpdate, if_neg (by simp [hact])]
  dsimp only
  rw [he1]
  dsimp only
  rw [← hF, hyeq, hvy, enemyCheckVertical_rect_vy_zero solid oneWay levelHeight F hFb]
  exact hhoriz.2.2.2 t ht

/-- C1 witness: a concrete grounded, motion-capable enemy standing next
to a solid wall does not interpenetrate it after the update. -/
theorem enemy_update_no_solid_overlap_at_rest_witness :
    collide (⟨⟨100, 100, 32, 32⟩, 1, 1, 0, 0, 0.8, 10, true, true⟩ : EnemyState).rect
        ⟨132, 68, 64, 64⟩ = false ∧
    collide (enemyUpdate [⟨132, 68, 64, 64⟩] [] 640 640
        ⟨⟨100, 100, 32, 32⟩, 1, 1, 0, 0, 0.8, 10, true, true⟩).rect
      ⟨132, 68, 64, 64⟩ = false := by
  have hclean : ∀ t ∈ [(⟨132, 68, 64, 64⟩ : Rect)],
      collide (⟨⟨100, 100, 32, 32⟩, 1, 1, 0, 0, 0.8, 10, true, true⟩ :
        EnemyState).rect t = false := by
    intro t ht
    rw [List.mem_singleton] at ht
    rw [ht]
    norm_num [collide, Rect.left, Rect.right, Rect.top, Rect.bottom]
  refine ⟨hclean ⟨132, 68, 64, 64⟩ (List.mem_singleton_self _), ?_⟩
  exact enemy_update_no_solid_overlap_at_rest [⟨132, 68, 64, 64⟩] [] 640 640
    ⟨⟨100, 100, 32, 32⟩, 1, 1, 0, 0, 0.8, 10, true, true⟩
    rfl rfl rfl (by norm_num) (by norm_num) (by norm_num) (by norm_num)
    (by intro u hu; rw [List.mem_singleton] at hu; rw [hu]; norm_num)
    hclean
    ⟨132, 68, 64, 64⟩ (List.mem_singleton_self _)

end Platformer
